import Mathlib

/-!
Shallow embedding of the product-viewer frontend (app controller, interaction
manager, UI controls) used to check the natural-language specification against
the code.  Geometry is modelled over `ℚ`; scene objects are identified by `Nat`
ids; JavaScript `Map`s are modelled by insertion-ordered association lists.
-/

/-- A 2D vector (screen/NDC coordinates), modelled over `ℚ`. -/
structure Vec2 where
  x : ℚ
  y : ℚ
deriving DecidableEq, Repr

/-- A 3D vector (world coordinates), modelled over `ℚ`. -/
structure Vec3 where
  x : ℚ
  y : ℚ
  z : ℚ
deriving DecidableEq, Repr

namespace Vec3

/-- Componentwise addition, as in `THREE.Vector3.add`. -/
def add (a b : Vec3) : Vec3 := ⟨a.x + b.x, a.y + b.y, a.z + b.z⟩

/-- Componentwise subtraction, as in `THREE.Vector3.subVectors`. -/
def sub (a b : Vec3) : Vec3 := ⟨a.x - b.x, a.y - b.y, a.z - b.z⟩

/-- Scalar multiplication, as in `THREE.Vector3.multiplyScalar`. -/
def smul (k : ℚ) (a : Vec3) : Vec3 := ⟨k * a.x, k * a.y, k * a.z⟩

/-- The zero vector. -/
def zero : Vec3 := ⟨0, 0, 0⟩

theorem add_sub_self (p q : Vec3) : p.add (q.sub q) = p := by
  cases p; cases q; simp [add, sub]

theorem add_sub_assoc (p a b c : Vec3) :
    (p.add (a.sub b)).add (c.sub a) = p.add (c.sub b) := by
  cases p; cases a; cases b; cases c
  simp only [add, sub, Vec3.mk.injEq]
  refine ⟨by ring, by ring, by ring⟩

end Vec3

/-! ## Recent-colors storage (`uiControls.js`, `getRecentColors` / `addRecentColor`)

`addRecentColor(color)` reads the stored list, removes any occurrence of
`color`, prepends `color`, keeps the first 6 entries and stores the result.
The stored list is threaded explicitly. -/

/-- `addRecentColor` from `uiControls.js`: given the currently stored list
`stored`, remove `color` (`filter(c => c !== color)`), `unshift` it to the
front and keep only the most recent 6 entries (`slice(0, 6)`). -/
def addRecentColor (stored : List String) (color : String) : List String :=
  List.take 6 (color :: stored.filter (fun c => c ≠ color))

theorem addRecentColor_head (stored : List String) (color : String) :
    (addRecentColor stored color).head? = some color := by
  simp [addRecentColor]

theorem addRecentColor_count (stored : List String) (color : String) :
    (addRecentColor stored color).count color = 1 := by
  unfold addRecentColor
  rw [show (6 : ℕ) = 5 + 1 from rfl, List.take_succ_cons]
  rw [List.count_cons_self]
  have hz : ((stored.filter (fun c => c ≠ color)).take 5).count color = 0 := by
    rw [List.count_eq_zero]
    intro h
    have hmem : color ∈ stored.filter (fun c => c ≠ color) := List.mem_of_mem_take h
    have := List.of_mem_filter hmem
    simp at this
  omega

theorem addRecentColor_length_le (stored : List String) (color : String) :
    (addRecentColor stored color).length ≤ 6 := by
  simp [addRecentColor]

theorem addRecentColor_idem (stored : List String) (color : String) :
    addRecentColor (addRecentColor stored color) color = addRecentColor stored color := by
  unfold addRecentColor
  have h1 : (color :: stored.filter (fun c => c ≠ color)).take 6 =
      color :: (stored.filter (fun c => c ≠ color)).take 5 := by
    simp [List.take_cons]
  rw [h1]
  have h2 : (color :: (stored.filter (fun c => c ≠ color)).take 5).filter
      (fun c => c ≠ color) = (stored.filter (fun c => c ≠ color)).take 5 := by
    rw [List.filter_cons]
    simp only [ne_eq, not_true_eq_false, decide_False, Bool.false_eq_true, if_false]
    apply List.filter_eq_self.mpr
    intro a ha
    have : a ∈ stored.filter (fun c => c ≠ color) := List.mem_of_mem_take ha
    have := List.of_mem_filter this
    simpa using this
  rw [h2]
  simp [List.take_cons, List.take_take]

/-- C8: for every color `c` and previously stored list, `addRecentColor`
yields a list whose first element is `c`, in which `c` occurs exactly once
(no duplicate of `c`), whose length is at most 6, and applying it twice in a
row equals applying it once. -/
theorem recent_colors_invariant (stored : List String) (color : String) :
    (addRecentColor stored color).head? = some color ∧
    (addRecentColor stored color).count color = 1 ∧
    (addRecentColor stored color).length ≤ 6 ∧
    addRecentColor (addRecentColor stored color) color = addRecentColor stored color :=
  ⟨addRecentColor_head stored color, addRecentColor_count stored color,
   addRecentColor_length_le stored color, addRecentColor_idem stored color⟩

/-! ## Reset button (`uiControls.js`, `resetButton.onclick`)

The handler iterates over `app.productGroup.children`; for each child it sets
`position` and `rotation` to zero and restores `scale` from
`child.children[0].userData.originalScale` when the child has a first
(grand)child carrying that snapshot, else sets scale to `(1,1,1)`. -/

/-- A node nested inside a part container; `userData.originalScale` may or may
not be present. -/
structure InnerNode where
  originalScale : Option Vec3
deriving DecidableEq, Repr

/-- A child of `productGroup`: one loaded part container. -/
structure PartNode where
  id : Nat
  position : Vec3
  rotation : Vec3
  scale : Vec3
  children : List InnerNode
deriving DecidableEq, Repr

/-- Placeholder part used as the out-of-range default for list indexing. -/
def defaultPart : PartNode := ⟨0, Vec3.zero, Vec3.zero, ⟨1, 1, 1⟩, []⟩

/-- Resetting one child of `productGroup`, per the body of the `forEach` in
`resetButton.onclick`: zero position and rotation; scale from
`child.children[0].userData.originalScale` if the first inner node exists and
carries a snapshot, else `(1,1,1)`. -/
def resetPart (c : PartNode) : PartNode :=
  { c with
    position := Vec3.zero
    rotation := Vec3.zero
    scale :=
      match c.children.head? with
      | some g =>
        match g.originalScale with
        | some sc => sc
        | none => ⟨1, 1, 1⟩
      | none => ⟨1, 1, 1⟩ }

/-- `resetButton.onclick` applied to the children of `productGroup` (the
camera refit `fitCameraToScene` does not touch the parts). -/
def resetButtonClick (group : List PartNode) : List PartNode :=
  group.map resetPart

/-- The original-scale snapshot stored for a part, as the reset handler reads
it: on the first inner node, when present. -/
def storedOriginalScale (c : PartNode) : Option Vec3 :=
  match c.children.head? with
  | some g => g.originalScale
  | none => none

/-- C10: reset sets every child's position and rotation to zero, its scale to
the stored original-scale snapshot when one exists and `(1,1,1)` otherwise,
and neither removes nor adds parts (same length, same ids in order). -/
theorem reset_restores_canonical_transforms (group : List PartNode)
    (i : Nat) (h : i < group.length) :
    (resetButtonClick group).length = group.length ∧
    (resetButtonClick group).map PartNode.id = group.map PartNode.id ∧
    ((resetButtonClick group).getD i defaultPart).position = Vec3.zero ∧
    ((resetButtonClick group).getD i defaultPart).rotation = Vec3.zero ∧
    ((resetButtonClick group).getD i defaultPart).scale =
      (storedOriginalScale (group.getD i defaultPart)).getD ⟨1, 1, 1⟩ := by
  have hlen : (resetButtonClick group).length = group.length := by
    simp [resetButtonClick]
  have hid : (resetButtonClick group).map PartNode.id = group.map PartNode.id := by
    simp only [resetButtonClick, List.map_map]
    rfl
  have hget : (resetButtonClick group).getD i defaultPart = resetPart (group.getD i defaultPart) := by
    unfold resetButtonClick
    rw [List.getD_eq_getElem?_getD, List.getD_eq_getElem?_getD]
    rw [List.getElem?_map]
    rw [List.getElem?_eq_getElem h]
    rfl
  refine ⟨hlen, hid, ?_, ?_, ?_⟩
  · rw [hget]; rfl
  · rw [hget]; rfl
  · rw [hget]
    unfold resetPart storedOriginalScale
    cases hh : (group.getD i defaultPart).children.head? with
    | none => rfl
    | some g =>
      cases hos : g.originalScale with
      | none => simp [hos]
      | some sc => simp [hos]

/-- Witness for C10 at a concrete two-part group: one part with a stored
original scale, one without. -/
theorem reset_restores_canonical_transforms_witness :
    (0 : Nat) < ([⟨1, ⟨2, 3, 4⟩, ⟨1, 0, 0⟩, ⟨5, 5, 5⟩, [⟨some ⟨7, 7, 7⟩⟩]⟩,
        ⟨2, ⟨0, 1, 0⟩, ⟨0, 0, 0⟩, ⟨3, 3, 3⟩, []⟩] : List PartNode).length ∧
    ((resetButtonClick [⟨1, ⟨2, 3, 4⟩, ⟨1, 0, 0⟩, ⟨5, 5, 5⟩, [⟨some ⟨7, 7, 7⟩⟩]⟩,
        ⟨2, ⟨0, 1, 0⟩, ⟨0, 0, 0⟩, ⟨3, 3, 3⟩, []⟩]).getD 0 defaultPart).scale = ⟨7, 7, 7⟩ := by
  constructor
  · decide
  · have h := reset_restores_canonical_transforms
      [⟨1, ⟨2, 3, 4⟩, ⟨1, 0, 0⟩, ⟨5, 5, 5⟩, [⟨some ⟨7, 7, 7⟩⟩]⟩,
       ⟨2, ⟨0, 1, 0⟩, ⟨0, 0, 0⟩, ⟨3, 3, 3⟩, []⟩] 0 (by decide)
    rw [h.2.2.2.2]
    decide

/-! ## Draggable-list round trip (`InteractionManager.getDraggableObjects` /
`setDraggableObjects`)

`setDraggableObjects(objects)` stores the caller's array reference;
`getDraggableObjects()` returns `[...this.draggableObjects]`, a fresh copy.
To talk about mutation of the returned array we model a small heap of arrays:
array values live in numbered cells, the manager stores a cell index, and the
spread copy allocates a fresh cell. -/

/-- A heap of array cells; each cell holds a list of object ids. -/
structure ArrayHeap where
  cells : List (List Nat)
deriving DecidableEq, Repr

/-- Read the array stored in cell `r`. -/
def ArrayHeap.readCell (h : ArrayHeap) (r : Nat) : List Nat :=
  h.cells.getD r []

/-- Overwrite cell `r` (a mutation of that array in place). -/
def ArrayHeap.writeCell (h : ArrayHeap) (r : Nat) (v : List Nat) : ArrayHeap :=
  ⟨h.cells.set r v⟩

/-- Allocate a fresh cell holding `v`; returns the new heap and the index. -/
def ArrayHeap.alloc (h : ArrayHeap) (v : List Nat) : ArrayHeap × Nat :=
  (⟨h.cells ++ [v]⟩, h.cells.length)

/-- `setDraggableObjects(objects)` stores the reference to the caller's
array: `this.draggableObjects = objects`. -/
def setDraggableObjectsRef (_current : Nat) (objects : Nat) : Nat :=
  objects

/-- `getDraggableObjects()` returns `[...this.draggableObjects]`: a freshly
allocated array whose contents equal the internal one. -/
def getDraggableObjectsRef (h : ArrayHeap) (draggableRef : Nat) : ArrayHeap × Nat :=
  h.alloc (h.readCell draggableRef)

theorem readCell_alloc_ne (h : ArrayHeap) (v : List Nat) (r : Nat)
    (hr : r < h.cells.length) :
    (h.alloc v).1.readCell r = h.readCell r := by
  unfold ArrayHeap.alloc ArrayHeap.readCell
  simp only
  rw [List.getD_eq_getElem?_getD, List.getD_eq_getElem?_getD]
  rw [List.getElem?_append_left hr]

theorem readCell_writeCell_ne (h : ArrayHeap) (r s : Nat) (v : List Nat)
    (hne : r ≠ s) : (h.writeCell s v).readCell r = h.readCell r := by
  unfold ArrayHeap.writeCell ArrayHeap.readCell
  simp only
  rw [List.getD_eq_getElem?_getD, List.getD_eq_getElem?_getD]
  rw [List.getElem?_set_ne (fun hc => hne hc.symm)]

/-- C9: after `setDraggableObjects(l)` (storing cell `r` whose contents are
`l`), `getDraggableObjects()` allocates a **new** cell (distinct from `r`)
whose contents are element-wise equal to `l`; overwriting the returned cell
with any value leaves the manager's internal list unchanged. -/
theorem draggable_list_round_trip (h : ArrayHeap) (r : Nat) (l : List Nat)
    (hr : r < h.cells.length) (hl : h.readCell r = l) :
    let internal := setDraggableObjectsRef 0 r
    let result := getDraggableObjectsRef h internal
    result.2 ≠ internal ∧
    result.1.readCell result.2 = l ∧
    ∀ v : List Nat, (result.1.writeCell result.2 v).readCell internal = l := by
  intro internal result
  have hint : internal = r := rfl
  have hres2 : result.2 = h.cells.length := rfl
  have hne : result.2 ≠ internal := by
    rw [hint, hres2]; omega
  refine ⟨hne, ?_, ?_⟩
  · show (h.alloc (h.readCell r)).1.readCell (h.alloc (h.readCell r)).2 = l
    unfold ArrayHeap.alloc ArrayHeap.readCell
    simp only
    rw [List.getD_eq_getElem?_getD, List.getElem?_append_right (Nat.le_refl _)]
    unfold ArrayHeap.readCell at hl
    rw [List.getD_eq_getElem?_getD] at hl
    simpa using hl
  · intro v
    rw [readCell_writeCell_ne _ _ _ _ (fun hc => hne hc.symm)]
    show (h.alloc (h.readCell r)).1.readCell r = l
    rw [readCell_alloc_ne h _ r hr, hl]

/-- Witness for C9 at a concrete heap: one cell `[5, 7]` at index 0. -/
theorem draggable_list_round_trip_witness :
    (0 : Nat) < (ArrayHeap.mk [[5, 7]]).cells.length ∧
    (ArrayHeap.mk [[5, 7]]).readCell 0 = [5, 7] ∧
    (getDraggableObjectsRef (ArrayHeap.mk [[5, 7]]) (setDraggableObjectsRef 0 0)).1.readCell
      (getDraggableObjectsRef (ArrayHeap.mk [[5, 7]]) (setDraggableObjectsRef 0 0)).2 = [5, 7] := by
  refine ⟨by decide, by decide, ?_⟩
  exact (draggable_list_round_trip (ArrayHeap.mk [[5, 7]]) 0 [5, 7]
    (by decide) (by decide)).2.1

/-! ## AR placement (`App.onSelectEvent`, `placeAgainButton` handler)

The product group is modelled by its position and by the fixed world-space
offsets of its content relative to that position (these offsets absorb the
children's own transforms and the group's rotation/scale, none of which the
placement handler changes).  `THREE.Box3().setFromObject(productGroup)`
therefore has `min.y` equal to `position.y` plus the least content offset. -/

/-- The placement-relevant state owned by the app controller. -/
structure PlacementState where
  isPlacingProduct : Bool
  hitTestSource : Bool
  productVisible : Bool
  productPos : Vec3
  /-- World-space offsets of the product content from `productPos` (fixed
  while a select handler runs: the handler only moves the group). -/
  contentOffsets : List Vec3
  floorPos : Vec3
  floorVisible : Bool
  placementMessageShown : Bool
  reticleVisible : Bool
  placeAgainShown : Bool
  rotateBtnsShown : Bool
  selectListenerArmed : Bool
deriving DecidableEq, Repr

/-- Minimum of two rationals (explicit so that concrete evaluation reduces). -/
def qmin (a b : ℚ) : ℚ := if a ≤ b then a else b

/-- Least element of a list of rationals, with default `d` for the empty
list (`THREE.Box3` on an empty group is empty; all claims assume loaded
content, so the default is never relevant under the theorems' hypotheses). -/
def listMinD (l : List ℚ) (d : ℚ) : ℚ :=
  match l with
  | [] => d
  | a :: rest => rest.foldl qmin a

/-- `new THREE.Box3().setFromObject(this.productGroup).min.y`: the least
world-space y over the group's content. -/
def bboxMinY (s : PlacementState) : ℚ :=
  listMinD (s.contentOffsets.map fun off => s.productPos.y + off.y) 0

/-- `App.onSelectEvent`: while placing with a live hit-test source, take the
first hit-test result (its pose position), compute `offsetY = bbox.min.y`,
show the group at the hit position raised by `-offsetY`, move/show the floor,
leave placement mode, swap prompt for the place-again button, show the
rotation buttons and detach the select listener.  With no hit-test result
(or when not placing) nothing happens. -/
def onSelectEvent (s : PlacementState) (hitResults : List Vec3) : PlacementState :=
  if s.isPlacingProduct ∧ s.hitTestSource then
    match hitResults with
    | [] => s
    | hit :: _ =>
      let offsetY := bboxMinY s
      { s with
        productVisible := true
        productPos := ⟨hit.x, hit.y - offsetY, hit.z⟩
        floorPos := hit
        floorVisible := true
        isPlacingProduct := false
        placementMessageShown := false
        reticleVisible := false
        placeAgainShown := true
        rotateBtnsShown := true
        selectListenerArmed := false }
  else s

/-- The `placeAgainButton` click handler: hide the group, re-enter placement
mode, swap the button back for the prompt, hide the rotation buttons and
re-arm the select listener. -/
def placeAgainClick (s : PlacementState) : PlacementState :=
  { s with
    productVisible := false
    isPlacingProduct := true
    placementMessageShown := true
    placeAgainShown := false
    rotateBtnsShown := false
    selectListenerArmed := true }

/-- A placement state as at the start of an AR session: group hidden, awaiting
placement, hit-test source obtained, product content dipping one unit below
the group origin. -/
def arStartState : PlacementState :=
  { isPlacingProduct := true
    hitTestSource := true
    productVisible := false
    productPos := Vec3.zero
    contentOffsets := [⟨0, -1, 0⟩, ⟨0, 2, 0⟩]
    floorPos := Vec3.zero
    floorVisible := false
    placementMessageShown := true
    reticleVisible := false
    placeAgainShown := false
    rotateBtnsShown := false
    selectListenerArmed := true }

/-- C2 (failing input): the first commit tap (surface height 5) does put the
group's lowest point at 5, but after a re-place request a second commit tap at
surface height 7 leaves the lowest point at 1, not 7: `offsetY` is read from
the world-space bounding box, which already contains the position set by the
first placement. -/
theorem placement_second_commit_misses_surface :
    bboxMinY (onSelectEvent arStartState [⟨0, 5, 0⟩]) = 5 ∧
    bboxMinY (onSelectEvent (placeAgainClick (onSelectEvent arStartState [⟨0, 5, 0⟩]))
      [⟨0, 7, 0⟩]) = 1 ∧ (1 : ℚ) ≠ 7 := by
  refine ⟨?_, ?_, by norm_num⟩ <;>
    norm_num [onSelectEvent, placeAgainClick, arStartState, bboxMinY, listMinD, qmin,
      Vec3.zero]

/-- C7: a select event received while awaiting placement (`isPlacingProduct`
true, hit-test source present) whose frame yields zero hit-test results
changes nothing: group visibility and position, the placement flag and all
placement UI state are exactly as before, so the machine stays in
`AwaitingPlacement`. -/
theorem commit_tap_without_hit_is_noop (s : PlacementState)
    (hp : s.isPlacingProduct = true) (hs : s.hitTestSource = true) :
    onSelectEvent s [] = s := by
  unfold onSelectEvent
  rw [if_pos ⟨hp, hs⟩]

/-- Witness for C7 at the concrete AR-session start state. -/
theorem commit_tap_without_hit_is_noop_witness :
    arStartState.isPlacingProduct = true ∧ arStartState.hitTestSource = true ∧
    onSelectEvent arStartState [] = arStartState :=
  ⟨rfl, rfl, commit_tap_without_hit_is_noop arStartState rfl rfl⟩

/-! ## Scene registry (`App.loadModel` success callback,
`App.clearExistingModels`, `InteractionManager.setDraggableObjects`)

`loadedModels` is a JavaScript `Map` (insertion-ordered, last-write-wins on
an existing key), modelled by an association list; each successful load
creates a fresh container object, modelled by drawing ids from a counter.
After updating the map the loader hands `Array.from(loadedModels.values())`
to `setDraggableObjects`. -/

/-- Registry-relevant state of the app plus the interaction manager's copy of
the draggable list. -/
structure RegState where
  loadedModels : List (String × Nat)
  productChildren : List Nat
  appDraggable : List Nat
  imDraggable : List Nat
  nextId : Nat
deriving DecidableEq, Repr

/-- `Map.prototype.set`: update the value in place if the key is present,
else append the new entry. -/
def mapSet (m : List (String × Nat)) (k : String) (v : Nat) : List (String × Nat) :=
  match m with
  | [] => [(k, v)]
  | (ka, va) :: rest => if ka = k then (k, v) :: rest else (ka, va) :: mapSet rest k v

/-- `Map.prototype.values()` in insertion order. -/
def mapValues (m : List (String × Nat)) : List Nat := m.map Prod.snd

/-- `Map.prototype.keys()` in insertion order. -/
def mapKeys (m : List (String × Nat)) : List String := m.map Prod.fst

/-- Initial registry state (`App` constructor: empty map, empty group, empty
draggable arrays). -/
def regInit : RegState := ⟨[], [], [], [], 0⟩

/-- The success callback of `App.loadModel` restricted to registry effects: a
fresh container is created, pushed onto `draggableObjects`, added to
`productGroup`, stored in `loadedModels` under `name`, and
`interactionManager.setDraggableObjects(Array.from(loadedModels.values()))`
is called. -/
def loadModelSuccess (s : RegState) (name : String) : RegState :=
  let container := s.nextId
  let m := mapSet s.loadedModels name container
  { loadedModels := m
    productChildren := s.productChildren ++ [container]
    appDraggable := s.appDraggable ++ [container]
    imDraggable := mapValues m
    nextId := s.nextId + 1 }

/-- `App.clearExistingModels`: every model in the map with a parent is removed
from `productGroup`; the map is cleared; `draggableObjects.length = 0`; then
`updateDragControls` hands the now-empty value list to the interaction
manager. -/
def clearExistingModels (s : RegState) : RegState :=
  { loadedModels := []
    productChildren := s.productChildren.filter (fun o => o ∉ mapValues s.loadedModels)
    appDraggable := []
    imDraggable := []
    nextId := s.nextId }

/-- A registry operation: a completed model load under a name, or a clear. -/
inductive RegOp where
  | register (name : String)
  | clear
deriving DecidableEq, Repr

/-- One registry operation applied to the state. -/
def regStep (s : RegState) (op : RegOp) : RegState :=
  match op with
  | .register name => loadModelSuccess s name
  | .clear => clearExistingModels s

/-- Run a sequence of registry operations from the initial state. -/
def runReg (ops : List RegOp) : RegState := ops.foldl regStep regInit

/-- The names registered and not subsequently cleared, in order of first
registration with repeats kept: a clear empties the accumulator. -/
def liveNamesStep (acc : List String) (op : RegOp) : List String :=
  match op with
  | .register name => acc ++ [name]
  | .clear => []

/-- Names registered after the last clear of an operation sequence. -/
def liveNames (ops : List RegOp) : List String := ops.foldl liveNamesStep []

theorem mapSet_cons_eq (ka : String) (va : Nat) (rest : List (String × Nat))
    (k : String) (v : Nat) (h : ka = k) :
    mapSet ((ka, va) :: rest) k v = (k, v) :: rest := by
  simp [mapSet, h]

theorem mapSet_cons_ne (ka : String) (va : Nat) (rest : List (String × Nat))
    (k : String) (v : Nat) (h : ¬ka = k) :
    mapSet ((ka, va) :: rest) k v = (ka, va) :: mapSet rest k v := by
  simp [mapSet, h]

theorem mapKeys_mapSet (m : List (String × Nat)) (k : String) (v : Nat) :
    mapKeys (mapSet m k v) =
      if k ∈ mapKeys m then mapKeys m else mapKeys m ++ [k] := by
  induction m with
  | nil => simp [mapSet, mapKeys]
  | cons e rest ih =>
    obtain ⟨ka, va⟩ := e
    by_cases hk : ka = k
    · subst hk
      rw [mapSet_cons_eq _ _ _ _ _ rfl]
      simp [mapKeys]
    · rw [mapSet_cons_ne _ _ _ _ _ hk]
      have hkk : ¬k = ka := fun h => hk h.symm
      simp only [mapKeys, List.map_cons] at ih ⊢
      rw [ih]
      by_cases hmem : k ∈ List.map Prod.fst rest
      · rw [if_pos hmem, if_pos (List.mem_cons_of_mem _ hmem)]
      · rw [if_neg hmem, if_neg (by
          simp only [List.mem_cons]
          push_neg
          exact ⟨hkk, hmem⟩)]
        simp

theorem mapValues_mapSet_mem (m : List (String × Nat)) (k : String) (v x : Nat)
    (hx : x ∈ mapValues (mapSet m k v)) : x ∈ mapValues m ∨ x = v := by
  induction m with
  | nil =>
    simp only [mapSet, mapValues, List.map_cons, List.map_nil, List.mem_singleton] at hx
    exact Or.inr hx
  | cons e rest ih =>
    obtain ⟨ka, va⟩ := e
    by_cases hk : ka = k
    · subst hk
      rw [mapSet_cons_eq _ _ _ _ _ rfl] at hx
      simp only [mapValues, List.map_cons, List.mem_cons] at hx ⊢
      rcases hx with h | h
      · exact Or.inr h
      · exact Or.inl (Or.inr h)
    · rw [mapSet_cons_ne _ _ _ _ _ hk] at hx
      simp only [mapValues, List.map_cons, List.mem_cons] at hx ⊢
      rcases hx with h | h
      · exact Or.inl (Or.inl h)
      · rcases ih h with h2 | h2
        · exact Or.inl (Or.inr h2)
        · exact Or.inr h2

theorem mapValues_mapSet_nodup (m : List (String × Nat)) (k : String) (v : Nat)
    (hn : (mapValues m).Nodup) (hv : v ∉ mapValues m) :
    (mapValues (mapSet m k v)).Nodup := by
  induction m with
  | nil => simp [mapSet, mapValues]
  | cons e rest ih =>
    obtain ⟨ka, va⟩ := e
    simp only [mapValues, List.map_cons, List.nodup_cons, List.mem_cons] at hn hv
    push_neg at hv
    by_cases hk : ka = k
    · subst hk
      rw [mapSet_cons_eq _ _ _ _ _ rfl]
      simp only [mapValues, List.map_cons, List.nodup_cons]
      exact ⟨hv.2, hn.2⟩
    · rw [mapSet_cons_ne _ _ _ _ _ hk]
      simp only [mapValues, List.map_cons, List.nodup_cons]
      refine ⟨?_, ih hn.2 hv.2⟩
      intro hmem
      rcases mapValues_mapSet_mem rest k v va hmem with h | h
      · exact hn.1 h
      · exact hv.1 h.symm

/-- The inductive invariant tying the registry state to the multiset of live
names: unique keys, unique fresh values, the interaction manager's list is
exactly the map's value list, every value is a child of the product group,
and the key set equals the live-name set. -/
def RegGood (s : RegState) (acc : List String) : Prop :=
  (mapKeys s.loadedModels).Nodup ∧
  (mapValues s.loadedModels).Nodup ∧
  (∀ v ∈ mapValues s.loadedModels, v < s.nextId) ∧
  s.imDraggable = mapValues s.loadedModels ∧
  (∀ v ∈ mapValues s.loadedModels, v ∈ s.productChildren) ∧
  (mapKeys s.loadedModels).toFinset = acc.toFinset

theorem regGood_step (s : RegState) (acc : List String) (op : RegOp)
    (h : RegGood s acc) : RegGood (regStep s op) (liveNamesStep acc op) := by
  obtain ⟨hk, hv, hlt, him, hsub, hfin⟩ := h
  cases op with
  | clear =>
    refine ⟨?_, ?_, ?_, ?_, ?_, ?_⟩ <;>
      simp [regStep, clearExistingModels, liveNamesStep, mapKeys, mapValues]
  | register name =>
    have hfresh : s.nextId ∉ mapValues s.loadedModels := by
      intro hmem
      exact absurd (hlt _ hmem) (by omega)
    refine ⟨?_, ?_, ?_, rfl, ?_, ?_⟩
    · rw [show mapKeys (regStep s (RegOp.register name)).loadedModels =
          mapKeys (mapSet s.loadedModels name s.nextId) from rfl]
      rw [mapKeys_mapSet]
      by_cases hmem : name ∈ mapKeys s.loadedModels
      · rw [if_pos hmem]; exact hk
      · rw [if_neg hmem]
        simpa [List.nodup_append] using ⟨hk, hmem⟩
    · exact mapValues_mapSet_nodup _ _ _ hv hfresh
    · intro v hmem
      rcases mapValues_mapSet_mem _ _ _ _ hmem with h | h
      · have := hlt _ h
        simp only [regStep, loadModelSuccess]
        omega
      · simp only [regStep, loadModelSuccess]
        omega
    · intro v hmem
      rcases mapValues_mapSet_mem _ _ _ _ hmem with h | h
      · have := hsub _ h
        simp only [regStep, loadModelSuccess, List.mem_append]
        exact Or.inl this
      · simp only [regStep, loadModelSuccess, List.mem_append]
        right
        simp [h]
    · rw [show mapKeys (regStep s (RegOp.register name)).loadedModels =
          mapKeys (mapSet s.loadedModels name s.nextId) from rfl]
      rw [mapKeys_mapSet]
      by_cases hmem : name ∈ mapKeys s.loadedModels
      · rw [if_pos hmem]
        have hname : name ∈ acc.toFinset := by
          rw [← hfin]; simpa using hmem
        simp only [liveNamesStep, List.toFinset_append, List.toFinset_cons,
          List.toFinset_nil]
        rw [hfin]
        have : insert name (∅ : Finset String) ⊆ acc.toFinset := by
          simp [Finset.insert_subset_iff, hname]
        rw [Finset.union_eq_left.mpr this]
      · rw [if_neg hmem]
        simp only [liveNamesStep, List.toFinset_append, List.toFinset_cons,
          List.toFinset_nil]
        rw [hfin]

theorem regGood_run (ops : List RegOp) :
    ∀ (s : RegState) (acc : List String), RegGood s acc →
      RegGood (ops.foldl regStep s) (ops.foldl liveNamesStep acc) := by
  induction ops with
  | nil => intro s acc h; exact h
  | cons op rest ih =>
    intro s acc h
    exact ih _ _ (regGood_step s acc op h)

theorem regGood_init : RegGood regInit [] := by
  refine ⟨?_, ?_, ?_, rfl, ?_, ?_⟩ <;> simp [regInit, mapKeys, mapValues]

/-- C6: after every sequence of register (successful model load) and clear
operations, the draggable list handed to the interaction core has length
equal to the number of distinct names registered and not subsequently
cleared, contains no object twice, and contains no object absent from the
product group. -/
theorem registry_consistency (ops : List RegOp) :
    (runReg ops).imDraggable.length = (liveNames ops).dedup.length ∧
    (runReg ops).imDraggable.Nodup ∧
    ∀ o ∈ (runReg ops).imDraggable, o ∈ (runReg ops).productChildren := by
  have h := regGood_run ops regInit [] regGood_init
  obtain ⟨hk, hv, _, him, hsub, hfin⟩ := h
  have hrun : runReg ops = ops.foldl regStep regInit := rfl
  have hlive : liveNames ops = ops.foldl liveNamesStep [] := rfl
  rw [hrun, hlive]
  refine ⟨?_, by rw [him]; exact hv, fun o ho => hsub o (by rw [← him]; exact ho)⟩
  rw [him]
  have hlen1 : (mapValues (ops.foldl regStep regInit).loadedModels).length =
      (mapKeys (ops.foldl regStep regInit).loadedModels).length := by
    simp [mapValues, mapKeys]
  rw [hlen1]
  rw [← List.toFinset_card_of_nodup hk]
  rw [hfin]
  exact List.card_toFinset _

/-! ## Interaction manager (`InteractionManager.js`)

State and handlers of the unified mouse/touch/XR interaction core.  Ray
casting and ray–plane intersection depend on scene geometry, so the handlers
take their outcome as an argument: a press event carries the ancestor chain
of the first intersected node (`none` when the ray hits nothing), walked
exactly as the source's `while` loop does; a move event carries the
ray–plane intersection point (`none` when the ray misses the plane). -/

/-- A quaternion with rational components, as `THREE.Quaternion`. -/
structure Quat where
  x : ℚ
  y : ℚ
  z : ℚ
  w : ℚ
deriving DecidableEq, Repr

/-- Hamilton product, component-for-component the formula of
`THREE.Quaternion.multiplyQuaternions(a, b)` (so `a.multiply(b)` is
`qmul a b`). -/
def qmul (a b : Quat) : Quat :=
  ⟨a.x * b.w + a.w * b.x + a.y * b.z - a.z * b.y,
   a.y * b.w + a.w * b.y + a.z * b.x - a.x * b.z,
   a.z * b.w + a.w * b.z + a.x * b.y - a.y * b.x,
   a.w * b.w - a.x * b.x - a.y * b.y - a.z * b.z⟩

/-- `THREE.Quaternion.invert()`: the conjugate (the quaternion is assumed to
have unit length). -/
def qconj (a : Quat) : Quat := ⟨-a.x, -a.y, -a.z, a.w⟩

/-- Squared length of a quaternion. -/
def qnormSq (a : Quat) : ℚ := a.x * a.x + a.y * a.y + a.z * a.z + a.w * a.w

/-- The identity quaternion, `new THREE.Quaternion()`. -/
def qid : Quat := ⟨0, 0, 0, 1⟩

theorem qmul_qconj_self (a : Quat) : qmul a (qconj a) = ⟨0, 0, 0, qnormSq a⟩ := by
  cases a
  simp only [qmul, qconj, qnormSq, Quat.mk.injEq]
  refine ⟨by ring, by ring, by ring, by ring⟩

theorem qmul_scalar_left (n : ℚ) (b : Quat) :
    qmul ⟨0, 0, 0, n⟩ b = ⟨n * b.x, n * b.y, n * b.z, n * b.w⟩ := by
  cases b
  simp only [qmul, Quat.mk.injEq]
  refine ⟨by ring, by ring, by ring, by ring⟩

/-- Association list from object id to a value (object-owned mutable data:
positions, scales, quaternions, `userData.originalScale`). -/
def alistGet {α : Type} (l : List (Nat × α)) (k : Nat) : Option α :=
  match l with
  | [] => none
  | (k2, v) :: rest => if k2 = k then some v else alistGet rest k

/-- Mutate the value owned by object `k`. -/
def alistUpdate {α : Type} (l : List (Nat × α)) (k : Nat) (f : α → α) :
    List (Nat × α) :=
  match l with
  | [] => []
  | (k2, v) :: rest =>
    if k2 = k then (k2, f v) :: alistUpdate rest k f
    else (k2, v) :: alistUpdate rest k f

theorem alistGet_update {α : Type} (l : List (Nat × α)) (k : Nat) (f : α → α) :
    alistGet (alistUpdate l k f) k = (alistGet l k).map f := by
  induction l with
  | nil => rfl
  | cons e rest ih =>
    obtain ⟨k2, v⟩ := e
    by_cases hk : k2 = k
    · subst hk
      simp [alistUpdate, alistGet]
    · simp only [alistUpdate, if_neg hk]
      simp only [alistGet, if_neg hk]
      exact ih

/-- The mutable fields of `InteractionManager`, together with the object data
it reads and writes and the two orbit-controls `enabled` flags (its own
instance and `window.app`'s, toggled together by
`disableOrbitControls` / `enableOrbitControls`), and `window.app.isDragging`
(read by `App.animate`). -/
structure DragState where
  isXRSessionActive : Bool
  rotationMode : Bool
  startControllerQuaternion : Quat
  startObjectQuaternion : Quat
  selectedObject : Option Nat
  activeController : Option Nat
  lastControllerPosition : Vec3
  draggableObjects : List Nat
  isDragging : Bool
  mouse : Vec2
  lastMousePosition : Vec2
  lastDragPoint : Option Vec3
  imOrbitEnabled : Bool
  appOrbitEnabled : Bool
  appIsDragging : Bool
  positions : List (Nat × Vec3)
  scales : List (Nat × Vec3)
  quats : List (Nat × Quat)
  origScales : List (Nat × Vec3)
deriving DecidableEq, Repr

/-- The `InteractionManager` constructor state: no session, no selection,
identity snapshots, empty draggable list, orbit controls enabled, and
`window.app.isDragging` starting out `false` (the `App` constructor);
object data is the loaded scene content. -/
def dragInit (positions scales origScales : List (Nat × Vec3))
    (quats : List (Nat × Quat)) : DragState :=
  { isXRSessionActive := false
    rotationMode := false
    startControllerQuaternion := qid
    startObjectQuaternion := qid
    selectedObject := none
    activeController := none
    lastControllerPosition := Vec3.zero
    draggableObjects := []
    isDragging := false
    mouse := ⟨0, 0⟩
    lastMousePosition := ⟨0, 0⟩
    lastDragPoint := none
    imOrbitEnabled := true
    appOrbitEnabled := true
    appIsDragging := false
    positions := positions
    scales := scales
    quats := quats
    origScales := origScales }

/-- The `while (object) { ... }` walk shared by the press handlers: ascend
the ancestor chain of the hit node, remembering the last (outermost) node
found in the draggable list, stopping at the scene (the chain ends there). -/
def findTopLevelDraggable (draggables : List Nat) : List Nat → Option Nat
  | [] => none
  | o :: rest =>
    match findTopLevelDraggable draggables rest with
    | some t => some t
    | none => if o ∈ draggables then some o else none

/-- `InteractionManager.handleDrag(clientX, clientY)`: update
`lastMousePosition` (the `deltaX`/`deltaY` computed from it are unused for
positioning); on a successful ray–plane intersection, the first point is
stored as reference without moving, later points add their difference from
the stored point to the selected object's position, re-apply
`userData.originalScale` when present (the host `socket.emit` is an outbound
side effect not modelled), and become the new stored point. -/
def handleDrag (s : DragState) (client : Vec2) (intersection : Option Vec3) :
    DragState :=
  match s.selectedObject with
  | none => s
  | some obj =>
    let s1 := { s with lastMousePosition := client }
    match intersection with
    | none => s1
    | some p =>
      match s1.lastDragPoint with
      | none => { s1 with lastDragPoint := some p }
      | some lastP =>
        let s2 := { s1 with
          positions := alistUpdate s1.positions obj fun q => q.add (p.sub lastP) }
        let s3 := { s2 with
          scales :=
            match alistGet s2.origScales obj with
            | some sc => alistUpdate s2.scales obj fun _ => sc
            | none => s2.scales }
        { s3 with lastDragPoint := some p }

/-- `InteractionManager.onMouseDown`: skipped in XR; update `mouse`; on a hit
whose chain resolves to a top-level draggable, disable both orbit-controls
instances, start the drag session, store the press position and clear the
drag-point reference. -/
def onMouseDown (s : DragState) (client ndc : Vec2) (hit : Option (List Nat)) :
    DragState :=
  if s.isXRSessionActive then s
  else
    let s1 := { s with mouse := ndc }
    match hit with
    | none => s1
    | some chain =>
      match findTopLevelDraggable s1.draggableObjects chain with
      | none => s1
      | some obj =>
        { s1 with
          imOrbitEnabled := false
          appOrbitEnabled := false
          isDragging := true
          selectedObject := some obj
          lastMousePosition := client
          lastDragPoint := none }

/-- `InteractionManager.onMouseMove`: always update `mouse`; while a session
is active with a selection, run `handleDrag`. -/
def onMouseMove (s : DragState) (client ndc : Vec2)
    (intersection : Option Vec3) : DragState :=
  let s1 := { s with mouse := ndc }
  if s1.isDragging && s1.selectedObject.isSome then
    handleDrag s1 client intersection
  else s1

/-- `InteractionManager.onMouseUp`: if a session is active, re-enable both
orbit-controls instances and clear the session. -/
def onMouseUp (s : DragState) : DragState :=
  if s.isDragging then
    { s with
      imOrbitEnabled := true
      appOrbitEnabled := true
      isDragging := false
      selectedObject := none
      lastDragPoint := none }
  else s

/-- `InteractionManager.onTouchStart`: skipped in XR or with other than one
touch point; otherwise identical to the mouse press handler. -/
def onTouchStart (s : DragState) (touchCount : Nat) (client ndc : Vec2)
    (hit : Option (List Nat)) : DragState :=
  if s.isXRSessionActive then s
  else if touchCount ≠ 1 then s
  else
    let s1 := { s with mouse := ndc }
    match hit with
    | none => s1
    | some chain =>
      match findTopLevelDraggable s1.draggableObjects chain with
      | none => s1
      | some obj =>
        { s1 with
          imOrbitEnabled := false
          appOrbitEnabled := false
          isDragging := true
          selectedObject := some obj
          lastMousePosition := client
          lastDragPoint := none }

/-- `InteractionManager.onTouchMove`: nothing without an active session and
selection, or with other than one touch point; otherwise update `mouse` and
run `handleDrag`. -/
def onTouchMove (s : DragState) (touchCount : Nat) (client ndc : Vec2)
    (intersection : Option Vec3) : DragState :=
  if !(s.isDragging && s.selectedObject.isSome) then s
  else if touchCount ≠ 1 then s
  else handleDrag { s with mouse := ndc } client intersection

/-- `InteractionManager.onTouchEnd` (also bound to `touchcancel`): same as
the mouse release handler. -/
def onTouchEnd (s : DragState) : DragState :=
  if s.isDragging then
    { s with
      imOrbitEnabled := true
      appOrbitEnabled := true
      isDragging := false
      selectedObject := none
      lastDragPoint := none }
  else s

/-- `InteractionManager.onControllerSelectStart`: intersect the controller
ray against the whole scene, resolve the ancestor chain to a top-level
draggable; on success record the object, the controller, and the
controller's world position. -/
def onControllerSelectStart (s : DragState) (ctrl : Nat) (ctrlPos : Vec3)
    (hit : Option (List Nat)) : DragState :=
  match hit with
  | none => s
  | some chain =>
    match findTopLevelDraggable s.draggableObjects chain with
    | none => s
    | some obj =>
      { s with
        selectedObject := some obj
        activeController := some ctrl
        lastControllerPosition := ctrlPos }

/-- `InteractionManager.onControllerSelectEnd`: clear selection, active
controller and rotation mode. -/
def onControllerSelectEnd (s : DragState) : DragState :=
  { s with selectedObject := none, activeController := none, rotationMode := false }

/-- `InteractionManager.onControllerSqueezeStart`: only with an existing
selection, enter rotation mode and snapshot the squeezing controller's
orientation and the selected object's orientation. -/
def onControllerSqueezeStart (s : DragState) (ctrlQuat : Quat) : DragState :=
  match s.selectedObject with
  | none => s
  | some obj =>
    { s with
      rotationMode := true
      startControllerQuaternion := ctrlQuat
      startObjectQuaternion := (alistGet s.quats obj).getD qid }

/-- `InteractionManager.onControllerSqueezeEnd`: leave rotation mode. -/
def onControllerSqueezeEnd (s : DragState) : DragState :=
  { s with rotationMode := false }

/-- The manipulation part of `InteractionManager.update()`: while a
selection, an active controller and an XR session all exist, either rotate
the object by the controller's orientation change since the snapshot, or
translate it by the controller's position change since the last frame
(doubled on mobile user agents).  `ctrlQuat`/`ctrlPos` are the active
controller's current orientation and world position. -/
def imUpdate (s : DragState) (ctrlQuat : Quat) (ctrlPos : Vec3)
    (isMobile : Bool) : DragState :=
  if s.selectedObject.isSome && s.activeController.isSome && s.isXRSessionActive then
    match s.selectedObject with
    | none => s
    | some obj =>
      if s.rotationMode then
        { s with
          quats := alistUpdate s.quats obj fun _ =>
            qmul (qmul ctrlQuat (qconj s.startControllerQuaternion))
              s.startObjectQuaternion }
      else
        let delta := ctrlPos.sub s.lastControllerPosition
        let delta2 := if isMobile then Vec3.smul 2 delta else delta
        { s with
          positions := alistUpdate s.positions obj fun q => q.add delta2
          lastControllerPosition := ctrlPos }
  else s

/-- Whether the tail of `InteractionManager.update()` calls
`this.orbitControls.update()` this frame: exactly when no XR session is
active (the instance always exists). -/
def imOrbitUpdateInvoked (s : DragState) : Bool := !s.isXRSessionActive

/-- Whether `App.animate`'s loop calls `this.orbitControls.update()` this
frame: exactly when `App.isDragging` is false. -/
def appOrbitUpdateInvoked (s : DragState) : Bool := !s.appIsDragging

/-- Which orbit-controls `update()` calls one pass of the render loop makes:
the app's instance and the interaction manager's instance. -/
def animateOrbitInvocations (s : DragState) : Bool × Bool :=
  (appOrbitUpdateInvoked s, imOrbitUpdateInvoked s)

/-- An input event delivered to the interaction manager (with the outcome of
any geometry query it performs), a session toggle, a registry update, or a
render-loop frame. -/
inductive DragEvent where
  | mouseDown (client ndc : Vec2) (hit : Option (List Nat))
  | mouseMove (client ndc : Vec2) (intersection : Option Vec3)
  | mouseUp
  | touchStart (touchCount : Nat) (client ndc : Vec2) (hit : Option (List Nat))
  | touchMove (touchCount : Nat) (client ndc : Vec2) (intersection : Option Vec3)
  | touchEnd
  | ctrlSelectStart (ctrl : Nat) (ctrlPos : Vec3) (hit : Option (List Nat))
  | ctrlSelectEnd
  | squeezeStart (ctrlQuat : Quat)
  | squeezeEnd
  | xrSessionStart
  | xrSessionEnd
  | setDraggables (objs : List Nat)
  | frameUpdate (ctrlQuat : Quat) (ctrlPos : Vec3) (isMobile : Bool)
deriving DecidableEq, Repr

/-- Dispatch one event to its handler (`sessionstart` sets the XR flag;
`sessionend` clears it and ends rotation mode; `setDraggableObjects` stores
the list). -/
def dragStep (s : DragState) (e : DragEvent) : DragState :=
  match e with
  | .mouseDown client ndc hit => onMouseDown s client ndc hit
  | .mouseMove client ndc intersection => onMouseMove s client ndc intersection
  | .mouseUp => onMouseUp s
  | .touchStart tc client ndc hit => onTouchStart s tc client ndc hit
  | .touchMove tc client ndc intersection => onTouchMove s tc client ndc intersection
  | .touchEnd => onTouchEnd s
  | .ctrlSelectStart ctrl ctrlPos hit => onControllerSelectStart s ctrl ctrlPos hit
  | .ctrlSelectEnd => onControllerSelectEnd s
  | .squeezeStart ctrlQuat => onControllerSqueezeStart s ctrlQuat
  | .squeezeEnd => onControllerSqueezeEnd s
  | .xrSessionStart => { s with isXRSessionActive := true }
  | .xrSessionEnd => { s with isXRSessionActive := false, rotationMode := false }
  | .setDraggables objs => { s with draggableObjects := objs }
  | .frameUpdate ctrlQuat ctrlPos isMobile => imUpdate s ctrlQuat ctrlPos isMobile

/-- Run a sequence of events. -/
def runDrag (s : DragState) (evs : List DragEvent) : DragState :=
  evs.foldl dragStep s

/-- The events handled by the mouse/touch press–move–release handlers (the
scope of the drag-session claims). -/
def isPointerEvent : DragEvent → Bool
  | .mouseDown _ _ _ => true
  | .mouseMove _ _ _ => true
  | .mouseUp => true
  | .touchStart _ _ _ _ => true
  | .touchMove _ _ _ _ => true
  | .touchEnd => true
  | _ => false

theorem handleDrag_session_fields (s : DragState) (c : Vec2)
    (i : Option Vec3) :
    (handleDrag s c i).isDragging = s.isDragging ∧
    (handleDrag s c i).selectedObject = s.selectedObject ∧
    (handleDrag s c i).imOrbitEnabled = s.imOrbitEnabled ∧
    (handleDrag s c i).appOrbitEnabled = s.appOrbitEnabled ∧
    (handleDrag s c i).appIsDragging = s.appIsDragging ∧
    (handleDrag s c i).isXRSessionActive = s.isXRSessionActive := by
  unfold handleDrag
  cases hsel : s.selectedObject with
  | none => simp [hsel]
  | some obj =>
    dsimp only
    cases i with
    | none => simp
    | some p =>
      cases hl : s.lastDragPoint with
      | none => simp [hl]
      | some lastP => simp [hl]

theorem onMouseDown_slot (s : DragState) (c n : Vec2) (hit : Option (List Nat))
    (hs : s.isDragging = s.selectedObject.isSome) :
    (onMouseDown s c n hit).isDragging =
      (onMouseDown s c n hit).selectedObject.isSome := by
  unfold onMouseDown
  dsimp only
  split
  · exact hs
  · cases hit with
    | none => exact hs
    | some chain =>
      dsimp only
      cases hf : findTopLevelDraggable s.draggableObjects chain with
      | none => exact hs
      | some obj => rfl

theorem onTouchStart_slot (s : DragState) (tc : Nat) (c n : Vec2)
    (hit : Option (List Nat))
    (hs : s.isDragging = s.selectedObject.isSome) :
    (onTouchStart s tc c n hit).isDragging =
      (onTouchStart s tc c n hit).selectedObject.isSome := by
  unfold onTouchStart
  dsimp only
  split
  · exact hs
  · split
    · exact hs
    · cases hit with
      | none => exact hs
      | some chain =>
        dsimp only
        cases hf : findTopLevelDraggable s.draggableObjects chain with
        | none => exact hs
        | some obj => rfl

theorem dragStep_slot_pointer (s : DragState) (e : DragEvent)
    (hp : isPointerEvent e = true)
    (hs : s.isDragging = s.selectedObject.isSome) :
    (dragStep s e).isDragging = (dragStep s e).selectedObject.isSome := by
  cases e with
  | mouseDown c n hit => exact onMouseDown_slot s c n hit hs
  | mouseMove c n i =>
    simp only [dragStep]
    unfold onMouseMove
    dsimp only
    split
    · have h := handleDrag_session_fields { s with mouse := n } c i
      rw [h.1, h.2.1]
      exact hs
    · exact hs
  | mouseUp =>
    simp only [dragStep]
    unfold onMouseUp
    split
    · rfl
    · exact hs
  | touchStart tc c n hit => exact onTouchStart_slot s tc c n hit hs
  | touchMove tc c n i =>
    simp only [dragStep]
    unfold onTouchMove
    split
    · exact hs
    · split
      · exact hs
      · have h := handleDrag_session_fields { s with mouse := n } c i
        rw [h.1, h.2.1]
        exact hs
  | touchEnd =>
    simp only [dragStep]
    unfold onTouchEnd
    split
    · rfl
    · exact hs
  | ctrlSelectStart ctrl cp hit => simp [isPointerEvent] at hp
  | ctrlSelectEnd => simp [isPointerEvent] at hp
  | squeezeStart cq => simp [isPointerEvent] at hp
  | squeezeEnd => simp [isPointerEvent] at hp
  | xrSessionStart => simp [isPointerEvent] at hp
  | xrSessionEnd => simp [isPointerEvent] at hp
  | setDraggables objs => simp [isPointerEvent] at hp
  | frameUpdate cq cp m => simp [isPointerEvent] at hp

/-- C1 (amended): across any sequence of mouse/touch press, move and release
events the session state stays a single consistent slot (`isDragging` holds
exactly when an object is selected, so two sessions never coexist); however
the press handlers do not check for an already-active session: a one-finger
touch press while a session is active and not in XR, whose hit chain
resolves to a draggable `obj`, leaves the single session active but replaces
the selected object by `obj`. -/
theorem drag_session_single_slot (evs : List DragEvent) (s : DragState)
    (hp : ∀ e ∈ evs, isPointerEvent e = true)
    (hs : s.isDragging = s.selectedObject.isSome) :
    ((runDrag s evs).isDragging = (runDrag s evs).selectedObject.isSome) ∧
    (∀ (s2 : DragState) (c n : Vec2) (chain : List Nat) (obj : Nat),
      s2.isDragging = true → s2.isXRSessionActive = false →
      findTopLevelDraggable s2.draggableObjects chain = some obj →
      (onTouchStart s2 1 c n (some chain)).isDragging = true ∧
      (onTouchStart s2 1 c n (some chain)).selectedObject = some obj) := by
  constructor
  · induction evs generalizing s with
    | nil => exact hs
    | cons e rest ih =>
      have hstep := dragStep_slot_pointer s e (hp e (by simp)) hs
      exact ih (dragStep s e) (fun e2 he2 => hp e2 (by simp [he2])) hstep
  · intro s2 c n chain obj hdrag hxr hf
    unfold onTouchStart
    rw [if_neg (by rw [hxr]; exact Bool.false_ne_true)]
    rw [if_neg (by omega)]
    dsimp only
    rw [hf]
    exact ⟨rfl, rfl⟩

/-- Witness for C1 (amended) at a concrete pointer-event run from the
constructor state. -/
theorem drag_session_single_slot_witness :
    (∀ e ∈ [DragEvent.mouseDown ⟨0, 0⟩ ⟨0, 0⟩ none], isPointerEvent e = true) ∧
    (dragInit [] [] [] []).isDragging =
      (dragInit [] [] [] []).selectedObject.isSome ∧
    (runDrag (dragInit [] [] [] [])
        [DragEvent.mouseDown ⟨0, 0⟩ ⟨0, 0⟩ none]).isDragging =
      (runDrag (dragInit [] [] [] [])
        [DragEvent.mouseDown ⟨0, 0⟩ ⟨0, 0⟩ none]).selectedObject.isSome :=
  ⟨by decide, rfl,
    (drag_session_single_slot [DragEvent.mouseDown ⟨0, 0⟩ ⟨0, 0⟩ none]
      (dragInit [] [] [] []) (by decide) rfl).1⟩

/-- C1 (counterexample): with draggables 1 and 2 registered, a mouse press
hitting object 1 starts a session; a later one-finger touch press hitting
object 2, delivered while that session is still active, replaces the
selected object — contradicting "a new press from the mouse or touch handler
does not start a second session or replace the selected object". -/
theorem drag_press_replaces_selection :
    (runDrag (dragInit [(1, Vec3.zero), (2, Vec3.zero)] [] [] [])
      [DragEvent.setDraggables [1, 2],
       DragEvent.mouseDown ⟨0, 0⟩ ⟨0, 0⟩ (some [1, 99])]).isDragging = true ∧
    (runDrag (dragInit [(1, Vec3.zero), (2, Vec3.zero)] [] [] [])
      [DragEvent.setDraggables [1, 2],
       DragEvent.mouseDown ⟨0, 0⟩ ⟨0, 0⟩ (some [1, 99])]).selectedObject = some 1 ∧
    (runDrag (dragInit [(1, Vec3.zero), (2, Vec3.zero)] [] [] [])
      [DragEvent.setDraggables [1, 2],
       DragEvent.mouseDown ⟨0, 0⟩ ⟨0, 0⟩ (some [1, 99]),
       DragEvent.touchStart 1 ⟨1, 1⟩ ⟨0, 0⟩ (some [2, 99])]).selectedObject ≠ some 1 := by
  refine ⟨rfl, rfl, ?_⟩
  intro h
  have h2 : (2 : Nat) = 1 := by
    have hsel : (runDrag (dragInit [(1, Vec3.zero), (2, Vec3.zero)] [] [] [])
      [DragEvent.setDraggables [1, 2],
       DragEvent.mouseDown ⟨0, 0⟩ ⟨0, 0⟩ (some [1, 99]),
       DragEvent.touchStart 1 ⟨1, 1⟩ ⟨0, 0⟩ (some [2, 99])]).selectedObject = some 2 := rfl
    rw [hsel] at h
    exact Option.some.inj h
  omega

theorem dragStep_orbit_flags (s : DragState) (e : DragEvent)
    (h1 : s.isDragging = true → s.imOrbitEnabled = false ∧ s.appOrbitEnabled = false)
    (h2 : s.appIsDragging = false) :
    ((dragStep s e).isDragging = true →
      (dragStep s e).imOrbitEnabled = false ∧ (dragStep s e).appOrbitEnabled = false) ∧
    (dragStep s e).appIsDragging = false := by
  cases e with
  | mouseDown c n hit =>
    simp only [dragStep]
    unfold onMouseDown
    dsimp only
    split
    · exact ⟨h1, h2⟩
    · cases hit with
      | none => exact ⟨h1, h2⟩
      | some chain =>
        dsimp only
        cases hf : findTopLevelDraggable s.draggableObjects chain with
        | none => exact ⟨h1, h2⟩
        | some obj => exact ⟨fun _ => ⟨rfl, rfl⟩, h2⟩
  | mouseMove c n i =>
    simp only [dragStep]
    unfold onMouseMove
    dsimp only
    split
    · have h := handleDrag_session_fields { s with mouse := n } c i
      rw [h.1, h.2.2.1, h.2.2.2.1, h.2.2.2.2.1]
      exact ⟨h1, h2⟩
    · exact ⟨h1, h2⟩
  | mouseUp =>
    simp only [dragStep]
    unfold onMouseUp
    split
    · exact ⟨fun h => absurd h Bool.false_ne_true, h2⟩
    · exact ⟨h1, h2⟩
  | touchStart tc c n hit =>
    simp only [dragStep]
    unfold onTouchStart
    dsimp only
    split
    · exact ⟨h1, h2⟩
    · split
      · exact ⟨h1, h2⟩
      · cases hit with
        | none => exact ⟨h1, h2⟩
        | some chain =>
          dsimp only
          cases hf : findTopLevelDraggable s.draggableObjects chain with
          | none => exact ⟨h1, h2⟩
          | some obj => exact ⟨fun _ => ⟨rfl, rfl⟩, h2⟩
  | touchMove tc c n i =>
    simp only [dragStep]
    unfold onTouchMove
    split
    · exact ⟨h1, h2⟩
    · split
      · exact ⟨h1, h2⟩
      · have h := handleDrag_session_fields { s with mouse := n } c i
        rw [h.1, h.2.2.1, h.2.2.2.1, h.2.2.2.2.1]
        exact ⟨h1, h2⟩
  | touchEnd =>
    simp only [dragStep]
    unfold onTouchEnd
    split
    · exact ⟨fun h => absurd h Bool.false_ne_true, h2⟩
    · exact ⟨h1, h2⟩
  | ctrlSelectStart ctrl cp hit =>
    simp only [dragStep]
    unfold onControllerSelectStart
    cases hit with
    | none => exact ⟨h1, h2⟩
    | some chain =>
      dsimp only
      cases hf : findTopLevelDraggable s.draggableObjects chain with
      | none => exact ⟨h1, h2⟩
      | some obj => exact ⟨h1, h2⟩
  | ctrlSelectEnd => exact ⟨h1, h2⟩
  | squeezeStart cq =>
    simp only [dragStep]
    unfold onControllerSqueezeStart
    cases hsel : s.selectedObject with
    | none => exact ⟨h1, h2⟩
    | some obj => exact ⟨h1, h2⟩
  | squeezeEnd => exact ⟨h1, h2⟩
  | xrSessionStart => exact ⟨h1, h2⟩
  | xrSessionEnd => exact ⟨h1, h2⟩
  | setDraggables objs => exact ⟨h1, h2⟩
  | frameUpdate cq cp m =>
    simp only [dragStep]
    unfold imUpdate
    dsimp only
    split
    · cases hsel : s.selectedObject with
      | none => exact ⟨h1, h2⟩
      | some obj =>
        dsimp only
        by_cases hrot : s.rotationMode = true
        · rw [if_pos hrot]
          exact ⟨h1, h2⟩
        · rw [if_neg hrot]
          exact ⟨h1, h2⟩
    · exact ⟨h1, h2⟩

/-- C5 (amended): across any event sequence, an active mouse/touch drag
keeps both orbit-controls instances disabled (`enabled = false`), but it
does not suppress the `update()` invocations: on every render-loop pass the
app's orbit controls have `update()` invoked unconditionally
(`App.isDragging`, the guard in `App.animate`, is never set by any handler
and stays `false`), and the interaction manager's instance has `update()`
invoked exactly when no XR session is active — in both cases regardless of
whether a drag or XR manipulation session is live. -/
theorem orbit_update_invocation_gating (evs : List DragEvent) (s : DragState)
    (h1 : s.isDragging = true → s.imOrbitEnabled = false ∧ s.appOrbitEnabled = false)
    (h2 : s.appIsDragging = false) :
    ((runDrag s evs).isDragging = true →
      (runDrag s evs).imOrbitEnabled = false ∧
      (runDrag s evs).appOrbitEnabled = false) ∧
    (runDrag s evs).appIsDragging = false ∧
    animateOrbitInvocations (runDrag s evs) =
      (true, !(runDrag s evs).isXRSessionActive) := by
  have main : ((runDrag s evs).isDragging = true →
      (runDrag s evs).imOrbitEnabled = false ∧
      (runDrag s evs).appOrbitEnabled = false) ∧
      (runDrag s evs).appIsDragging = false := by
    induction evs generalizing s with
    | nil => exact ⟨h1, h2⟩
    | cons e rest ih =>
      have hstep := dragStep_orbit_flags s e h1 h2
      exact ih (dragStep s e) hstep.1 hstep.2
  refine ⟨main.1, main.2, ?_⟩
  unfold animateOrbitInvocations appOrbitUpdateInvoked imOrbitUpdateInvoked
  rw [main.2]
  rfl

/-- Witness for C5 (amended) at a concrete event run from the constructor
state. -/
theorem orbit_update_invocation_gating_witness :
    ((dragInit [] [] [] []).isDragging = true →
      (dragInit [] [] [] []).imOrbitEnabled = false ∧
      (dragInit [] [] [] []).appOrbitEnabled = false) ∧
    (dragInit [] [] [] []).appIsDragging = false ∧
    animateOrbitInvocations (runDrag (dragInit [] [] [] []) [DragEvent.xrSessionStart]) =
      (true, !(runDrag (dragInit [] [] [] []) [DragEvent.xrSessionStart]).isXRSessionActive) :=
  ⟨fun h => absurd h (by decide), rfl,
    (orbit_update_invocation_gating [DragEvent.xrSessionStart] (dragInit [] [] [] [])
      (fun h => absurd h (by decide)) rfl).2.2⟩

/-- C5 (counterexample): in a frame rendered during an active mouse drag
(no XR session), the render loop still invokes `update()` on both
orbit-controls instances — contradicting "neither orbit-controls instance
has its update() invoked" on frames with an active session. -/
theorem orbit_updates_invoked_during_drag :
    (runDrag (dragInit [(1, Vec3.zero)] [] [] [])
      [DragEvent.setDraggables [1],
       DragEvent.mouseDown ⟨0, 0⟩ ⟨0, 0⟩ (some [1, 99])]).isDragging = true ∧
    animateOrbitInvocations (runDrag (dragInit [(1, Vec3.zero)] [] [] [])
      [DragEvent.setDraggables [1],
       DragEvent.mouseDown ⟨0, 0⟩ ⟨0, 0⟩ (some [1, 99])]) = (true, true) := by
  exact ⟨rfl, rfl⟩

/-- A drag session's successful ray–plane intersections, in order, each with
the client coordinate of the move event that produced it, replayed through
`handleDrag` (moves whose ray misses the plane leave the position and the
stored point unchanged and are omitted). -/
def runDragMoves (s : DragState) (moves : List (Vec2 × Vec3)) : DragState :=
  moves.foldl (fun st mv => handleDrag st mv.1 (some mv.2)) s

theorem handleDrag_first (s : DragState) (obj : Nat) (c : Vec2) (p : Vec3)
    (hsel : s.selectedObject = some obj) (hfresh : s.lastDragPoint = none) :
    handleDrag s c (some p) =
      { s with lastMousePosition := c, lastDragPoint := some p } := by
  unfold handleDrag
  rw [hsel]
  dsimp only
  rw [show ({ s with lastMousePosition := c } : DragState).lastDragPoint =
      s.lastDragPoint from rfl, hfresh]

theorem handleDrag_accum (s : DragState) (obj : Nat) (c : Vec2) (p q pos : Vec3)
    (hsel : s.selectedObject = some obj) (hlast : s.lastDragPoint = some q)
    (hpos : alistGet s.positions obj = some pos) :
    alistGet (handleDrag s c (some p)).positions obj = some (pos.add (p.sub q)) ∧
    (handleDrag s c (some p)).lastDragPoint = some p ∧
    (handleDrag s c (some p)).selectedObject = some obj := by
  unfold handleDrag
  rw [hsel]
  dsimp only
  rw [show ({ s with lastMousePosition := c } : DragState).lastDragPoint =
      s.lastDragPoint from rfl, hlast]
  dsimp only
  refine ⟨?_, rfl, rfl⟩
  rw [show ({ s with lastMousePosition := c } : DragState).positions =
      s.positions from rfl]
  rw [alistGet_update, hpos]
  rfl

theorem runDragMoves_accum (moves : List (Vec2 × Vec3)) :
    ∀ (s : DragState) (obj : Nat) (p q : Vec3),
      s.selectedObject = some obj → s.lastDragPoint = some q →
      alistGet s.positions obj = some p →
      alistGet (runDragMoves s moves).positions obj =
        some (p.add (((moves.map Prod.snd).getLastD q).sub q)) ∧
      (runDragMoves s moves).lastDragPoint =
        some ((moves.map Prod.snd).getLastD q) ∧
      (runDragMoves s moves).selectedObject = some obj := by
  induction moves with
  | nil =>
    intro s obj p q hsel hlast hpos
    refine ⟨?_, ?_, hsel⟩
    · show alistGet s.positions obj = some (p.add (q.sub q))
      rw [Vec3.add_sub_self]
      exact hpos
    · exact hlast
  | cons mv rest ih =>
    intro s obj p q hsel hlast hpos
    obtain ⟨c, P⟩ := mv
    have hstep := handleDrag_accum s obj c P q p hsel hlast hpos
    have hrun : runDragMoves s ((c, P) :: rest) =
        runDragMoves (handleDrag s c (some P)) rest := rfl
    rw [hrun]
    have hrest := ih (handleDrag s c (some P)) obj (p.add (P.sub q)) P
      hstep.2.2 hstep.2.1 hstep.1
    have hlastd : (((c, P) :: rest).map Prod.snd).getLastD q =
        (rest.map Prod.snd).getLastD P := by
      rw [List.map_cons, List.getLastD_cons]
    rw [hlastd]
    refine ⟨?_, hrest.2.1, hrest.2.2⟩
    rw [hrest.1, Vec3.add_sub_assoc]

/-- C3: in a drag session whose successful plane intersections are
`P0, P1, …, Pn` (`P0` the first since session start), the first intersection
moves nothing, and after the whole session the selected object's position is
its pre-drag position plus `Pn − P0`, independently of the number and values
of the intermediate points. -/
theorem drag_delta_path_independence (s : DragState) (obj : Nat) (pos0 : Vec3)
    (c0 : Vec2) (P0 : Vec3) (moves : List (Vec2 × Vec3))
    (hsel : s.selectedObject = some obj) (hfresh : s.lastDragPoint = none)
    (hpos : alistGet s.positions obj = some pos0) :
    alistGet (runDragMoves s [(c0, P0)]).positions obj = some pos0 ∧
    alistGet (runDragMoves s ((c0, P0) :: moves)).positions obj =
      some (pos0.add (((moves.map Prod.snd).getLastD P0).sub P0)) := by
  have hfirst := handleDrag_first s obj c0 P0 hsel hfresh
  constructor
  · show alistGet (handleDrag s c0 (some P0)).positions obj = some pos0
    rw [hfirst]
    exact hpos
  · have hrun : runDragMoves s ((c0, P0) :: moves) =
        runDragMoves (handleDrag s c0 (some P0)) moves := rfl
    rw [hrun, hfirst]
    exact (runDragMoves_accum moves
      { s with lastMousePosition := c0, lastDragPoint := some P0 }
      obj pos0 P0 hsel rfl hpos).1

/-- Witness for C3: a session on object 1 starting at position `(10,0,0)`
with reference point `(0,0,0)` and two further intersections; the final
position is the start plus the last intersection minus the first. -/
theorem drag_delta_path_independence_witness :
    alistGet (runDragMoves
      { dragInit [(1, ⟨10, 0, 0⟩)] [] [] [] with
          selectedObject := some 1, isDragging := true }
      [(⟨0, 0⟩, ⟨0, 0, 0⟩), (⟨1, 0⟩, ⟨2, 5, 0⟩), (⟨2, 0⟩, ⟨3, 3, 3⟩)]).positions 1 =
      some ((⟨10, 0, 0⟩ : Vec3).add ((⟨3, 3, 3⟩ : Vec3).sub ⟨0, 0, 0⟩)) := by
  have h := drag_delta_path_independence
    { dragInit [(1, ⟨10, 0, 0⟩)] [] [] [] with
        selectedObject := some 1, isDragging := true }
    1 ⟨10, 0, 0⟩ ⟨0, 0⟩ ⟨0, 0, 0⟩ [(⟨1, 0⟩, ⟨2, 5, 0⟩), (⟨2, 0⟩, ⟨3, 3, 3⟩)]
    rfl rfl rfl
  exact h.2

/-- C4: entering rotation mode via a squeeze with an existing selection
snapshots the controller orientation `c0` and the object orientation `o0`;
a later frame observing controller orientation `c1` sets the object's
orientation to `(c1 · c0⁻¹) · o0` (three.js `invert` being the unit-length
conjugate); consequently, a unit `c0` and a frame observing `c1 = c0` return
the object exactly to `o0`. -/
theorem xr_rotation_snapshot (s : DragState) (obj ctrl : Nat) (c0 c1 : Quat)
    (cp : Vec3) (m : Bool) (o0 : Quat)
    (hsel : s.selectedObject = some obj)
    (hctrl : s.activeController = some ctrl)
    (hxr : s.isXRSessionActive = true)
    (hq : alistGet s.quats obj = some o0) :
    alistGet (imUpdate (onControllerSqueezeStart s c0) c1 cp m).quats obj =
      some (qmul (qmul c1 (qconj c0)) o0) ∧
    (qnormSq c0 = 1 →
      alistGet (imUpdate (onControllerSqueezeStart s c0) c0 cp m).quats obj =
        some o0) := by
  have key : ∀ cq : Quat,
      alistGet (imUpdate (onControllerSqueezeStart s c0) cq cp m).quats obj =
        some (qmul (qmul cq (qconj c0)) o0) := by
    intro cq
    unfold onControllerSqueezeStart
    rw [hsel]
    dsimp only
    rw [hq]
    unfold imUpdate
    dsimp only
    rw [hctrl, hxr]
    rw [if_pos (show (((some obj).isSome && (some ctrl).isSome && true) = true)
      from rfl)]
    rw [if_pos (show ((true : Bool) = true) from rfl)]
    rw [alistGet_update, hq]
    rfl
  refine ⟨key c1, fun hunit => ?_⟩
  rw [key c0, qmul_qconj_self c0, hunit, qmul_scalar_left]
  cases o0
  simp

/-- Witness for C4: a selected object with orientation `(1,2,3,4)`, rotation
mode entered at the unit controller orientation `(3/5, 0, 0, 4/5)`, and a
frame observing the same controller orientation: the object's orientation is
back to `(1,2,3,4)`. -/
theorem xr_rotation_snapshot_witness :
    alistGet (imUpdate (onControllerSqueezeStart
      { dragInit [] [] [] [(1, ⟨1, 2, 3, 4⟩)] with
          selectedObject := some 1, activeController := some 7,
          isXRSessionActive := true }
      ⟨3/5, 0, 0, 4/5⟩) ⟨3/5, 0, 0, 4/5⟩ Vec3.zero false).quats 1 =
      some (⟨1, 2, 3, 4⟩ : Quat) :=
  (xr_rotation_snapshot
    { dragInit [] [] [] [(1, ⟨1, 2, 3, 4⟩)] with
        selectedObject := some 1, activeController := some 7,
        isXRSessionActive := true }
    1 7 ⟨3/5, 0, 0, 4/5⟩ ⟨3/5, 0, 0, 4/5⟩ Vec3.zero false ⟨1, 2, 3, 4⟩
    rfl rfl rfl rfl).2 (by norm_num [qnormSq])

/-- Witness for C6 at a concrete operation sequence: two loads, a clear, and
a re-load; the list handed to the interaction core is the one fresh
container, present in the product group. -/
theorem registry_consistency_witness :
    (runReg [RegOp.register "blade", RegOp.register "frame", RegOp.clear,
        RegOp.register "blade"]).imDraggable.length =
      (liveNames [RegOp.register "blade", RegOp.register "frame", RegOp.clear,
        RegOp.register "blade"]).dedup.length ∧
    (runReg [RegOp.register "blade", RegOp.register "frame", RegOp.clear,
        RegOp.register "blade"]).imDraggable.Nodup ∧
    (2 : Nat) ∈ (runReg [RegOp.register "blade", RegOp.register "frame",
        RegOp.clear, RegOp.register "blade"]).imDraggable ∧
    (2 : Nat) ∈ (runReg [RegOp.register "blade", RegOp.register "frame",
        RegOp.clear, RegOp.register "blade"]).productChildren := by
  have h := registry_consistency [RegOp.register "blade", RegOp.register "frame",
    RegOp.clear, RegOp.register "blade"]
  exact ⟨h.1, h.2.1, by decide, h.2.2 2 (by decide)⟩
